import Mathlib

/-!
Verification of the `agreetodisagree` debate-game server (`src/server.js`,
the variant with connection tracking: `connected` flags, `pointsPerWinner`,
disconnected-player grace handling — the variant the specification
describes).  The server's per-lobby data and the handlers/phase functions
the claims mention are embedded shallowly: JS objects keyed by strings
become association lists, stateful handlers become state-passing
functions, and timer/`setTimeout` scheduling becomes explicit outputs or
a discrete-event transition system.
-/

namespace A2D

/-- `{ username, isHost, connected }` entries of `lobby.participants`. -/
structure Participant where
  username : String
  isHost : Bool
  connected : Bool
deriving DecidableEq, Repr

/-- A lobby as stored in the `lobbies` map (fields the claims touch). -/
structure Lobby where
  code : String
  host : String
  participants : List Participant
  gameStarted : Bool
deriving DecidableEq, Repr

/-- A JS object with string keys: insertion-ordered association list with
at most one entry per key (maintained by `objSet`). -/
abbrev Obj (α : Type) := List (String × α)

/-- `o[k]`: the value at key `k`, if present. -/
def objGet {α : Type} (o : Obj α) (k : String) : Option α :=
  (List.find? (fun e => e.1 = k) o).map (fun e => e.2)

/-- Whether key `k` is present. -/
def objHasKey {α : Type} (o : Obj α) (k : String) : Bool :=
  List.any o (fun e => e.1 = k)

/-- `o[k] = v`: overwrite the entry if the key exists, else append it
(JS string-keyed objects preserve insertion order). -/
def objSet {α : Type} (o : Obj α) (k : String) (v : α) : Obj α :=
  if objHasKey o k then List.map (fun e => if e.1 = k then (k, v) else e) o
  else o ++ [(k, v)]

/-- `Object.keys(o).length`. -/
def objSize {α : Type} (o : Obj α) : Nat := List.length o

/-- `Object.keys(o)`. -/
def objKeys {α : Type} (o : Obj α) : List String := List.map Prod.fst o

/-- Modify the value at key `k` in place (used for `o[k] += d` on keys
that are present). -/
def objUpdate {α : Type} (o : Obj α) (k : String) (f : α → α) : Obj α :=
  List.map (fun e => if e.1 = k then (e.1, f e.2) else e) o

/-- JS `x || d` on an optionally-present string value: `undefined` and the
empty string are falsy, every other string is truthy. -/
def jsOr (o : Option String) (d : String) : String :=
  match o with
  | none => d
  | some v => if v = "" then d else v

/-- JS falsiness of an optionally-present string: `!x` in the source. -/
def jsFalsy (o : Option String) : Bool :=
  match o with
  | none => true
  | some v => v = ""

/-- `{ agree, disagree, abstain }` tally records. -/
structure VoteResults where
  agree : Nat
  disagree : Nat
  abstain : Nat
deriving DecidableEq, Repr

/-- Sum of the three tracked counters. -/
def VoteResults.total (r : VoteResults) : Nat := r.agree + r.disagree + r.abstain

/-- `voteResults[vote]++`: an increment lands on one of the three tracked
counters exactly when `vote` is one of the three choice strings; any other
string creates an untracked junk field (`undefined++` is `NaN` in JS),
which none of the tallies' readers (`.agree`/`.disagree`/`.abstain`)
ever observe. -/
def addVote (r : VoteResults) (v : String) : VoteResults :=
  if v = "agree" then { r with agree := r.agree + 1 }
  else if v = "disagree" then { r with disagree := r.disagree + 1 }
  else if v = "abstain" then { r with abstain := r.abstain + 1 }
  else r

/-- One of the three recognised choice strings. -/
def validChoice (v : String) : Bool :=
  v == "agree" || v == "disagree" || v == "abstain"

/-- Body of the tally loops of `processVoteResults`/`calculateResults`:
`if (participant.connected) { const vote = votes[participant.username] || 'abstain'; voteResults[vote]++; }`. -/
def tallyStep (votes : Obj String) (r : VoteResults) (p : Participant) : VoteResults :=
  if p.connected then addVote r (jsOr (objGet votes p.username) "abstain") else r

/-- The tally both `processVoteResults` and `calculateResults` compute:
every connected participant contributes their recorded vote (`abstain`
when absent/falsy); disconnected participants are skipped. -/
def tallyVotes (ps : List Participant) (votes : Obj String) : VoteResults :=
  List.foldl (tallyStep votes) ⟨0, 0, 0⟩ ps

/-- Game state fields the verified functions read or write
(`gameStates.get(code)`). -/
structure GameState where
  phase : String
  roundNumber : Nat
  currentTopic : String
  votes : Obj String
  revotes : Obj String
  scores : Obj Int
  usedSpeakers : List String
  initialVoteResults : VoteResults
  finalVoteResults : VoteResults
  currentSpeaker : Option String
  speakerPosition : Option String
deriving DecidableEq, Repr

/-- The award loop of `calculateResults`:
`lobby.participants.forEach(p => { if (revotes[p.username] === team0) scores[p.username] += pts; })`. -/
def awardFold (ps : List Participant) (revotes : Obj String) (team0 : String)
    (pts : Int) (sc : Obj Int) : Obj Int :=
  List.foldl (fun sc p =>
    if objGet revotes p.username == some team0 then
      objUpdate sc p.username (fun x => x + pts)
    else sc) sc ps

/-- The penalty loop of `calculateResults`:
`lobby.participants.forEach(p => { if (p.connected && !revotes[p.username]) scores[p.username] -= 1; })`. -/
def penaltyFold (ps : List Participant) (revotes : Obj String) (sc : Obj Int) : Obj Int :=
  List.foldl (fun sc p =>
    if p.connected && jsFalsy (objGet revotes p.username) then
      objUpdate sc p.username (fun x => x - 1)
    else sc) sc ps

/-- Result of `calculateResults`: the updated game state plus the values
the `round-results` broadcast carries. -/
structure RoundOut where
  state : GameState
  winningTeam : List String
  pointsPerWinner : Int
  agreeChange : Int
  disagreeChange : Int
deriving DecidableEq, Repr

/-- `calculateResults(code)`: tally the revotes of connected participants,
compare each side's net change, award `pointsPerWinner` to every
participant whose revote matches the winning side (only when the team is
non-empty and `pointsPerWinner > 0`), then subtract 1 from every connected
participant with a falsy revote. -/
def calculateResults (lobby : Lobby) (gs : GameState) : RoundOut :=
  let finalVoteResults := tallyVotes lobby.participants gs.revotes
  let agreeChange : Int :=
    (finalVoteResults.agree : Int) - (gs.initialVoteResults.agree : Int)
  let disagreeChange : Int :=
    (finalVoteResults.disagree : Int) - (gs.initialVoteResults.disagree : Int)
  let winningTeam : List String :=
    if agreeChange > disagreeChange then ["agree"]
    else if disagreeChange > agreeChange then ["disagree"]
    else []
  let pointsPerWinner : Int :=
    if agreeChange > disagreeChange then agreeChange
    else if disagreeChange > agreeChange then disagreeChange
    else 0
  let scores1 : Obj Int :=
    if winningTeam.length > 0 ∧ pointsPerWinner > 0 then
      awardFold lobby.participants gs.revotes (winningTeam.headD "") pointsPerWinner gs.scores
    else gs.scores
  let scores2 : Obj Int := penaltyFold lobby.participants gs.revotes scores1
  { state := { gs with
                 finalVoteResults := finalVoteResults,
                 scores := scores2,
                 phase := "round-results" },
    winningTeam := winningTeam, pointsPerWinner := pointsPerWinner,
    agreeChange := agreeChange, disagreeChange := disagreeChange }

/-- Outcome of the `cast-vote` / `cast-revote` socket handlers: the updated
game state, whether `clearInterval` ran on the armed interval, and the
`setTimeout` settle delay of the scheduled transition when the fast path
fired. -/
structure CastOut where
  state : GameState
  timerCanceled : Bool
  scheduledDelayMs : Option Nat
deriving DecidableEq, Repr

/-- `socket.on('cast-vote')`: in the `voting` phase, record
`votes[username] = vote` (no roster-membership or choice validation), then
fire the fast path when `Object.keys(votes).length >= connectedPlayers.length`,
clearing the interval and scheduling `processVoteResults` after 1000 ms. -/
def castVote (lobby : Lobby) (gs : GameState) (timerArmed : Bool)
    (username vote : String) : CastOut :=
  if gs.phase = "voting" then
    let votes1 := objSet gs.votes username vote
    let connectedPlayers := List.filter (fun p => p.connected) lobby.participants
    if objSize votes1 ≥ connectedPlayers.length then
      { state := { gs with votes := votes1 },
        timerCanceled := timerArmed, scheduledDelayMs := some 1000 }
    else
      { state := { gs with votes := votes1 },
        timerCanceled := false, scheduledDelayMs := none }
  else { state := gs, timerCanceled := false, scheduledDelayMs := none }

/-- `socket.on('cast-revote')`: same as `castVote` against the `revoting`
phase and `revotes`, scheduling `calculateResults` after 1000 ms. -/
def castRevote (lobby : Lobby) (gs : GameState) (timerArmed : Bool)
    (username vote : String) : CastOut :=
  if gs.phase = "revoting" then
    let revotes1 := objSet gs.revotes username vote
    let connectedPlayers := List.filter (fun p => p.connected) lobby.participants
    if objSize revotes1 ≥ connectedPlayers.length then
      { state := { gs with revotes := revotes1 },
        timerCanceled := timerArmed, scheduledDelayMs := some 1000 }
    else
      { state := { gs with revotes := revotes1 },
        timerCanceled := false, scheduledDelayMs := none }
  else { state := gs, timerCanceled := false, scheduledDelayMs := none }

/-- The continuation a phase function leaves behind in a `setTimeout`. -/
inductive NextStep
  | soloPhase
  | skippedNotice
  | scoreboard
deriving DecidableEq, Repr

/-- Result of a phase function: updated state, emitted events in order,
and the scheduled continuation. -/
structure PhaseOut where
  state : GameState
  emits : List String
  next : Option NextStep
deriving DecidableEq, Repr

/-- `processVoteResults(code)`: tally the votes of connected participants
into `initialVoteResults`; if either side has zero votes, enter the
`round-skipped` path (emit the vote results now, schedule the
round-skipped notice), otherwise enter `vote-results` and schedule
`startSoloPhase`. -/
def processVoteResults (lobby : Lobby) (gs : GameState) : PhaseOut :=
  let voteResults := tallyVotes lobby.participants gs.votes
  let gs1 := { gs with initialVoteResults := voteResults }
  if voteResults.agree = 0 ∨ voteResults.disagree = 0 then
    { state := { gs1 with phase := "round-skipped" },
      emits := ["game-phase-update:vote-results", "vote-results"],
      next := some NextStep.skippedNotice }
  else
    { state := { gs1 with phase := "vote-results" },
      emits := ["game-phase-update:vote-results", "vote-results"],
      next := some NextStep.soloPhase }

/-- The inner `setTimeout` body of the skip branch of `processVoteResults`:
emit the round-skipped notice, then schedule `showScoreboard`. -/
def roundSkippedNotice (gs : GameState) : PhaseOut :=
  { state := gs,
    emits := ["game-phase-update:round-skipped", "round-skipped"],
    next := some NextStep.scoreboard }

/-- Result of the `/api/lobby/join` handler on an existing lobby. -/
structure JoinOut where
  lobby : Lobby
  game : Option GameState
  reconnection : Bool
deriving DecidableEq, Repr

/-- `app.post('/api/lobby/join')`, after the lobby lookup succeeded: if a
participant with this username exists, mark it `connected = true` and
answer `{ lobby, reconnection: true }` (the `gameStarted` flag is never
consulted); otherwise push a new non-host connected participant, and when
a game state exists, initialise `scores[username] = 0`. -/
def joinLobby (lobby : Lobby) (game : Option GameState) (username : String) : JoinOut :=
  match List.find? (fun p => p.username = username) lobby.participants with
  | some _ =>
      { lobby := { lobby with
                     participants := List.map
                       (fun p => if p.username = username then { p with connected := true } else p)
                       lobby.participants },
        game := game, reconnection := true }
  | none =>
      let lobby1 := { lobby with
                        participants := lobby.participants ++
                          [{ username := username, isHost := false, connected := true }] }
      match game with
      | some gs =>
          { lobby := lobby1, game := some { gs with scores := objSet gs.scores username 0 },
            reconnection := false }
      | none => { lobby := lobby1, game := none, reconnection := false }

/-- `gameState && gameState.phase !== 'waiting'`: an active mid-game
lobby, the condition that selects the grace-period branch. -/
def gameActive (game : Option GameState) : Bool :=
  match game with
  | some gs => gs.phase != "waiting"
  | none => false

/-- Outcome of the `leave-lobby` / `disconnect` handlers for one lobby:
the surviving lobby and game state (`none` when torn down) and the
broadcasts sent to the group. -/
structure PresenceOut where
  lobby : Option Lobby
  game : Option GameState
  emits : List String
deriving DecidableEq, Repr

/-- `socket.on('leave-lobby')`, after the lobby lookup succeeded: if a
game is active (phase ≠ `waiting`), only mark the participant
disconnected; otherwise remove them, and tear the lobby and game state
down when the roster empties or the leaver is the host. -/
def handleLeaveLobby (lobby : Lobby) (game : Option GameState) (username : String) : PresenceOut :=
  if gameActive game then
    { lobby := some { lobby with
                        participants := List.map
                          (fun p => if p.username = username then { p with connected := false } else p)
                          lobby.participants },
      game := game, emits := ["lobby-updated"] }
  else
    let participants1 := List.filter (fun p => ¬ p.username = username) lobby.participants
    if participants1.length = 0 ∨ username = lobby.host then
      { lobby := none, game := none, emits := ["lobby-closed"] }
    else
      { lobby := some { lobby with participants := participants1 },
        game := game, emits := ["lobby-updated"] }

/-- `socket.on('disconnect')`, after the lobby lookup succeeded: a no-op
unless the username is on the roster; then the same branching as
`handleLeaveLobby` (mark disconnected mid-game, otherwise remove and
possibly tear down). -/
def handleDisconnect (lobby : Lobby) (game : Option GameState) (username : String) : PresenceOut :=
  match List.find? (fun p => p.username = username) lobby.participants with
  | none => { lobby := some lobby, game := game, emits := [] }
  | some _ =>
      if gameActive game then
        { lobby := some { lobby with
                            participants := List.map
                              (fun p => if p.username = username then { p with connected := false } else p)
                              lobby.participants },
          game := game, emits := ["lobby-updated"] }
      else
        let participants1 := List.filter (fun p => ¬ p.username = username) lobby.participants
        if participants1.length = 0 ∨ username = lobby.host then
          { lobby := none, game := none, emits := ["lobby-closed"] }
        else
          { lobby := some { lobby with participants := participants1 },
            game := game, emits := ["lobby-updated"] }

/-- Result of `startSoloPhase`: updated state, the selected speaker and
announced position, and whether the empty-pool path skipped straight to
the discussion phase. -/
structure SoloOut where
  state : GameState
  emits : List String
  speaker : Option String
  position : Option String
  skippedToDiscussion : Bool
deriving DecidableEq, Repr

/-- `startSoloPhase(code)`: the speaker pool starts from
`Object.keys(gameState.scores)` (the score table), keeps the usernames of
currently connected roster members, and drops `usedSpeakers`; an empty
pool resets `usedSpeakers` and falls back to all connected score-table
keys; if that is still empty, `startDiscussionPhase` runs instead.  The
random draw `Math.floor(Math.random() * speakers.length)` is modelled by
`rand % speakers.length`.  The announced position is
`votes[selectedSpeaker] || 'abstain'`. -/
def startSoloPhase (lobby : Lobby) (gs : GameState) (rand : Nat) : SoloOut :=
  let gs1 := { gs with phase := "solo" }
  let gameStartParticipants := objKeys gs.scores
  let connectedPlayers :=
    List.map (fun p => p.username) (List.filter (fun p => p.connected) lobby.participants)
  let availableSpeakers :=
    List.filter (fun u => !(List.contains gs.usedSpeakers u))
      (List.filter (fun u => List.contains connectedPlayers u) gameStartParticipants)
  let usedSpeakers1 := if availableSpeakers.length = 0 then [] else gs.usedSpeakers
  let speakers :=
    if availableSpeakers.length > 0 then availableSpeakers
    else List.filter (fun u => List.contains connectedPlayers u) gameStartParticipants
  if speakers.length = 0 then
    { state := { gs1 with usedSpeakers := usedSpeakers1, phase := "discussion" },
      emits := ["game-phase-update:discussion"],
      speaker := none, position := none, skippedToDiscussion := true }
  else
    let selectedSpeaker := speakers.getD (rand % speakers.length) ""
    let speakerVote := jsOr (objGet gs.votes selectedSpeaker) "abstain"
    { state := { gs1 with
                   usedSpeakers := usedSpeakers1 ++ [selectedSpeaker],
                   currentSpeaker := some selectedSpeaker,
                   speakerPosition := some speakerVote },
      emits := ["game-phase-update:solo", "speaker-selected"],
      speaker := some selectedSpeaker, position := some speakerVote,
      skippedToDiscussion := false }

/-- `start-game`'s score initialisation:
`lobby.participants.forEach(p => { gameState.scores[p.username] = 0; })`. -/
def initScores (ps : List Participant) : Obj Int :=
  List.foldl (fun sc p => objSet sc p.username 0) [] ps

/-- Discrete-event view of a lobby's `timerInterval`.  `armed` is the
pending interval: its remaining seconds and an identifier of the armed
period (each `setInterval` call yields a fresh identifier, as each call
yields a fresh interval handle).  `fired` lists, in order, the periods
whose `onExpire` callback ran; `canceled` lists the periods whose interval
was cleared before expiring. -/
structure TimerSys where
  armed : Option (Nat × Nat)
  nextId : Nat
  fired : List Nat
  canceled : List Nat
deriving DecidableEq, Repr

/-- No interval pending, nothing fired. -/
def timerInit : TimerSys := ⟨none, 0, [], []⟩

/-- The timer-relevant events of the server: `startTimer(code, d, cb)`,
`clearInterval(gameState.timerInterval)` (as run by the fast paths and
phase functions), and a one-second interval tick. -/
inductive TEv
  | arm (d : Nat)
  | cancel
  | tick
deriving DecidableEq, Repr

/-- `if (gameState.timerInterval) clearInterval(gameState.timerInterval)`:
clearing a pending interval ends its period without firing. -/
def cancelNow (s : TimerSys) : TimerSys :=
  match s.armed with
  | some (_, i) => { s with armed := none, canceled := s.canceled ++ [i] }
  | none => s

/-- One event of the timer system.  `arm d` is `startTimer`: it first
clears any existing interval, then arms a fresh period of `d` seconds.
`tick` is the interval callback: `timer--`, and once the decremented
value reaches `<= 0` it clears the interval, nulls the handle and runs
the expiry callback (recorded in `fired`). -/
def tstep (s : TimerSys) (e : TEv) : TimerSys :=
  match e with
  | TEv.cancel => cancelNow s
  | TEv.arm d =>
      let s1 := cancelNow s
      { s1 with armed := some (d, s1.nextId), nextId := s1.nextId + 1 }
  | TEv.tick =>
      match s.armed with
      | none => s
      | some (r, i) =>
          if r ≤ 1 then { s with armed := none, fired := s.fired ++ [i] }
          else { s with armed := some (r - 1, i) }

/-- Run a sequence of timer events from the initial state. -/
def trun (evs : List TEv) : TimerSys := List.foldl tstep timerInit evs

/-! ### Concrete states used by the claim checks -/

/-- The game state `start-game` installs for a roster (`phase: 'voting'`,
empty vote maps, zeroed tallies, scores zeroed per participant). -/
def freshGameState (ps : List Participant) : GameState :=
  { phase := "voting", roundNumber := 1, currentTopic := "", votes := [], revotes := [],
    scores := initScores ps, usedSpeakers := [], initialVoteResults := ⟨0, 0, 0⟩,
    finalVoteResults := ⟨0, 0, 0⟩, currentSpeaker := none, speakerPosition := none }

/-- Four participants at game start, all connected. -/
def c1LobbyStart : Lobby :=
  ⟨"L1", "A1", [⟨"A1", true, true⟩, ⟨"A2", false, true⟩,
    ⟨"D1", false, true⟩, ⟨"D2", false, true⟩], true⟩

/-- The voting-phase state in which everyone has voted, two per side. -/
def c1GsVoting : GameState :=
  { freshGameState c1LobbyStart.participants with
      votes := [("A1", "agree"), ("A2", "agree"), ("D1", "disagree"), ("D2", "disagree")] }

/-- The same roster later in the round, after `A1`, `D1` and `D2`
disconnected (mid-game disconnects only flip `connected`). -/
def c1LobbyLate : Lobby :=
  ⟨"L1", "A1", [⟨"A1", true, false⟩, ⟨"A2", false, true⟩,
    ⟨"D1", false, false⟩, ⟨"D2", false, false⟩], true⟩

/-- The revoting-phase state: initial tally as computed by
`processVoteResults` on the full roster, and only `A2` revoted. -/
def c1GsRevote : GameState :=
  { (processVoteResults c1LobbyStart c1GsVoting).state with
      phase := "revoting", revotes := [("A2", "agree")] }

/-- The spec scenario lobby: host `A` and participant `B`. -/
def w1Lobby : Lobby := ⟨"W1", "A", [⟨"A", true, true⟩, ⟨"B", false, true⟩], true⟩

/-- The spec scenario at results time: initial `{agree 1, disagree 1}`,
revotes both `agree`. -/
def w1Gs : GameState :=
  { freshGameState w1Lobby.participants with
      phase := "revoting", initialVoteResults := ⟨1, 1, 0⟩,
      votes := [("A", "agree"), ("B", "disagree")],
      revotes := [("A", "agree"), ("B", "agree")] }

/-- Host `H` plus one participant, mid-game. -/
def c2Lobby : Lobby := ⟨"L2", "H", [⟨"H", true, true⟩, ⟨"B", false, true⟩], true⟩

/-- An active game (`phase: 'voting'`). -/
def c2Gs : GameState := freshGameState c2Lobby.participants

/-- Host `H` plus one participant, game not started. -/
def w2Lobby : Lobby := ⟨"W2", "H", [⟨"H", true, true⟩, ⟨"B", false, true⟩], false⟩

/-- A pre-game lobby already containing `alice`. -/
def c3Lobby : Lobby := ⟨"L3", "H", [⟨"H", true, true⟩, ⟨"alice", false, false⟩], false⟩

/-- Two connected participants, game started. -/
def c4Lobby : Lobby := ⟨"L4", "A", [⟨"A", true, true⟩, ⟨"B", false, true⟩], true⟩

/-- Fresh voting state for `c4Lobby`. -/
def c4Gs : GameState := freshGameState c4Lobby.participants

/-- One connected participant. -/
def w4Lobby : Lobby := ⟨"W4", "A", [⟨"A", true, true⟩], true⟩

/-- Fresh voting state for `w4Lobby`. -/
def w4GsV : GameState := freshGameState w4Lobby.participants

/-- Revoting state for `w4Lobby`. -/
def w4GsR : GameState := { freshGameState w4Lobby.participants with phase := "revoting" }

/-- One connected participant. -/
def c5Lobby : Lobby := ⟨"L5", "A", [⟨"A", true, true⟩], true⟩

/-- The vote map after `A` casts the unrecognised choice `banana`
through the `cast-vote` handler. -/
def c5Votes : Obj String :=
  (castVote c5Lobby (freshGameState c5Lobby.participants) false "A" "banana").state.votes

/-- One connected and one disconnected participant. -/
def w5Ps : List Participant := [⟨"A", true, true⟩, ⟨"B", false, false⟩]

/-- A single valid recorded vote. -/
def w5Votes : Obj String := [("A", "agree")]

/-- Lobby for the round-skip witness. -/
def w6Lobby : Lobby := ⟨"W6", "A", [⟨"A", true, true⟩, ⟨"B", false, true⟩], true⟩

/-- Both participants voted `agree`: the disagree side is empty. -/
def w6Gs : GameState :=
  { freshGameState w6Lobby.participants with
      votes := [("A", "agree"), ("B", "agree")] }

/-- Lobby for the no-revote penalty witness. -/
def w7Lobby : Lobby := ⟨"W7", "A", [⟨"A", true, true⟩, ⟨"B", false, true⟩], true⟩

/-- Results-time state in which connected `A` cast no revote. -/
def w7Gs : GameState :=
  { freshGameState w7Lobby.participants with
      phase := "revoting", initialVoteResults := ⟨1, 1, 0⟩,
      revotes := [("B", "disagree")] }

/-- Game-start roster for the speaker-selection check: `A` and `B`. -/
def c8Lobby0 : Lobby := ⟨"L8", "A", [⟨"A", true, true⟩, ⟨"B", false, true⟩], true⟩

/-- The game state at game start (`scores` holds exactly `A` and `B`). -/
def c8Gs0 : GameState := freshGameState c8Lobby0.participants

/-- `C` joins mid-game through `/api/lobby/join`. -/
def c8Join : JoinOut := joinLobby c8Lobby0 (some c8Gs0) "C"

/-- The roster after `C` joined. -/
def c8Lobby1 : Lobby := c8Join.lobby

/-- The game state after `C` joined: `scores` gained the key `C`. -/
def c8Gs1 : GameState := { c8Gs0 with scores := objSet c8Gs0.scores "C" 0 }

/-- The game state after `C` casts the empty-string vote. -/
def c8Gs2 : GameState := (castVote c8Lobby1 c8Gs1 true "C" "").state

/-- One connected participant, game started. -/
def w10Lobby : Lobby := ⟨"W10", "A", [⟨"A", true, true⟩], true⟩

/-- Fresh voting state for `w10Lobby`. -/
def w10GsV : GameState := freshGameState w10Lobby.participants

/-- Revoting state for `w10Lobby`. -/
def w10GsR : GameState := { freshGameState w10Lobby.participants with phase := "revoting" }

/-! ### Derived definitions used in statements -/

/-- Generic per-participant conditional score update. -/
def pfold (cond : Participant → Bool) (f : Int → Int) (sc : Obj Int)
    (ps : List Participant) : Obj Int :=
  List.foldl (fun sc q => if cond q then objUpdate sc q.username f else sc) sc ps

/-- The effective contribution of a participant to one tally counter. -/
def tallyHits (votes : Obj String) (side : String) (p : Participant) : Bool :=
  p.connected && (jsOr (objGet votes p.username) "abstain" == side)

/-- The pair `(agreeChange, disagreeChange)` computed by `calculateResults`. -/
def roundChanges (lobby : Lobby) (gs : GameState) : Int × Int :=
  let fv := tallyVotes lobby.participants gs.revotes
  ((fv.agree : Int) - (gs.initialVoteResults.agree : Int),
   (fv.disagree : Int) - (gs.initialVoteResults.disagree : Int))

/-- The side `calculateResults` declares winner, if any: the side whose
net change is strictly larger; equality (including both zero) yields no
winner. -/
def winnerSide (d : Int × Int) : Option String :=
  if d.1 > d.2 then some "agree" else if d.2 > d.1 then some "disagree" else none

/-- The exact award `calculateResults` gives participant `p`: when the
larger net change (`max agreeChange disagreeChange`, the winning side's
change when a winner exists) is strictly positive and `p`'s recorded
revote equals the winning side, that change; otherwise nothing. -/
def awardOf (lobby : Lobby) (gs : GameState) (p : Participant) : Int :=
  let d := roundChanges lobby gs
  if 0 < max d.1 d.2 ∧ objGet gs.revotes p.username = winnerSide d
      ∧ (winnerSide d).isSome = true
  then max d.1 d.2 else 0

/-- The exact penalty `calculateResults` gives participant `p`: −1 when
`p` is connected and has a falsy recorded revote, otherwise nothing. -/
def penaltyOf (gs : GameState) (p : Participant) : Int :=
  if p.connected && jsFalsy (objGet gs.revotes p.username) then -1 else 0

/-- Invariant of the timer system: fired periods are pairwise distinct,
fired and canceled periods are disjoint, all recorded identifiers are in
range, and the armed period (if any) has neither fired nor been
canceled. -/
def TimerOk (s : TimerSys) : Prop :=
  s.fired.Nodup ∧
  (∀ i ∈ s.fired, i < s.nextId ∧ i ∉ s.canceled) ∧
  (∀ i ∈ s.canceled, i < s.nextId) ∧
  (∀ r i, s.armed = some (r, i) → i < s.nextId ∧ i ∉ s.fired ∧ i ∉ s.canceled)


/-! ### Association-list lemmas -/

theorem objGet_cons {α : Type} (e : String × α) (o : Obj α) (k : String) :
    objGet (e :: o) k = if e.1 = k then some e.2 else objGet o k := by
  by_cases h : e.1 = k
  · simp [objGet, List.find?_cons_of_pos, h]
  · simp [objGet, List.find?_cons_of_neg, h]

theorem objGet_objUpdate_self {α : Type} (o : Obj α) (k : String) (f : α → α) :
    objGet (objUpdate o k f) k = Option.map f (objGet o k) := by
  induction o with
  | nil => rfl
  | cons e o ih =>
      by_cases h : e.1 = k
      · simp [objUpdate, objGet_cons, h]
      · simpa [objUpdate, objGet_cons, h] using ih

theorem objGet_objUpdate_ne {α : Type} (o : Obj α) (k u : String) (f : α → α)
    (h : u ≠ k) : objGet (objUpdate o k f) u = objGet o u := by
  induction o with
  | nil => rfl
  | cons e o ih =>
      simp only [objUpdate, List.map_cons]
      rw [objGet_cons, objGet_cons]
      have hkey : (if e.1 = k then (e.1, f e.2) else e).1 = e.1 := by
        by_cases he : e.1 = k <;> simp [he]
      rw [hkey]
      by_cases hu : e.1 = u
      · have he : ¬ e.1 = k := fun hh => h (hu ▸ hh)
        simp [hu, he, h]
      · simp only [hu, if_neg]
        simpa only [objUpdate] using ih

theorem objGet_eq_none_of_not_hasKey {α : Type} (o : Obj α) (k : String)
    (h : objHasKey o k = false) : objGet o k = none := by
  induction o with
  | nil => rfl
  | cons e o ih =>
      simp only [objHasKey, List.any_cons, Bool.or_eq_false_iff] at h
      have he : ¬ e.1 = k := by simpa using h.1
      simp [objGet_cons, he, ih (by simpa [objHasKey] using h.2)]

theorem objGet_append {α : Type} (o o' : Obj α) (k : String) :
    objGet (o ++ o') k = (objGet o k).or (objGet o' k) := by
  simp only [objGet, List.find?_append]
  cases List.find? (fun e => e.1 = k) o <;> simp

theorem objGet_mapSet_self {α : Type} (o : Obj α) (k : String) (v : α)
    (h : objHasKey o k = true) :
    objGet (List.map (fun e => if e.1 = k then (k, v) else e) o) k = some v := by
  induction o with
  | nil => simp [objHasKey] at h
  | cons e o ih =>
      simp only [List.map_cons]
      rw [objGet_cons]
      by_cases he : e.1 = k
      · simp [he]
      · have h' : objHasKey o k = true := by
          simp only [objHasKey, List.any_cons, Bool.or_eq_true] at h
          rcases h with h | h
          · exact absurd (by simpa using h) he
          · simpa [objHasKey] using h
        simpa [he] using ih h'

theorem objGet_mapSet_ne {α : Type} (o : Obj α) (k u : String) (v : α)
    (h : u ≠ k) :
    objGet (List.map (fun e => if e.1 = k then (k, v) else e) o) u = objGet o u := by
  induction o with
  | nil => rfl
  | cons e o ih =>
      simp only [List.map_cons]
      rw [objGet_cons, objGet_cons]
      by_cases he : e.1 = k
      · have hu : ¬ e.1 = u := fun hh => h (hh.symm.trans he)
        have hku : ¬ k = u := fun hh => h hh.symm
        simp [he, hu, hku, ih]
      · by_cases hu : e.1 = u <;> simp [he, hu, h, ih]

theorem objGet_objSet_self {α : Type} (o : Obj α) (k : String) (v : α) :
    objGet (objSet o k v) k = some v := by
  unfold objSet
  by_cases h : objHasKey o k = true
  · rw [if_pos h]
    exact objGet_mapSet_self o k v h
  · rw [if_neg h, objGet_append,
      objGet_eq_none_of_not_hasKey o k (by simpa using h)]
    simp [objGet_cons]

theorem objGet_objSet_ne {α : Type} (o : Obj α) (k u : String) (v : α)
    (h : u ≠ k) : objGet (objSet o k v) u = objGet o u := by
  unfold objSet
  by_cases hk : objHasKey o k = true
  · rw [if_pos hk]
    exact objGet_mapSet_ne o k u v h
  · rw [if_neg hk, objGet_append]
    have h1 : objGet [(k, v)] u = none := by
      have hku : ¬ k = u := fun hh => h hh.symm
      rw [objGet_cons]
      simp [hku, objGet]
    rw [h1]
    cases hg : objGet o u <;> simp

theorem objGet_isSome_iff_mem_keys {α : Type} (o : Obj α) (k : String) :
    (objGet o k).isSome = true ↔ k ∈ objKeys o := by
  induction o with
  | nil => simp [objGet, objKeys]
  | cons e o ih =>
      by_cases h : e.1 = k <;>
        simp [objGet_cons, objKeys, h, ih, eq_comm (a := k)]

theorem length_objKeys {α : Type} (o : Obj α) : (objKeys o).length = objSize o := by
  simp [objKeys, objSize]

theorem objGet_eq_some_mem {α : Type} (o : Obj α) (u : String) (w : α)
    (h : objGet o u = some w) : (u, w) ∈ o := by
  unfold objGet at h
  cases hf : List.find? (fun e => e.1 = u) o with
  | none => rw [hf] at h; cases h
  | some e =>
      rw [hf] at h
      have he := List.mem_of_find?_eq_some hf
      have hp := List.find?_some hf
      obtain ⟨a, b⟩ := e
      simp at hp h
      subst hp
      subst h
      exact he

/-! ### Score-fold lemmas

Both mutation loops of `calculateResults` have the shape
"for each participant, if a condition holds, update their score entry";
`pfold` is that shape, and `pfold_get` says what it does to the entry of
one participant of a duplicate-free roster. -/

theorem pfold_nil (cond : Participant → Bool) (f : Int → Int) (sc : Obj Int) :
    pfold cond f sc [] = sc := rfl

theorem pfold_cons (cond : Participant → Bool) (f : Int → Int) (sc : Obj Int)
    (q : Participant) (rest : List Participant) :
    pfold cond f sc (q :: rest)
      = pfold cond f (if cond q then objUpdate sc q.username f else sc) rest := rfl

theorem awardFold_eq_pfold (ps : List Participant) (revotes : Obj String)
    (team0 : String) (pts : Int) (sc : Obj Int) :
    awardFold ps revotes team0 pts sc
      = pfold (fun p => objGet revotes p.username == some team0) (fun x => x + pts) sc ps := rfl

theorem penaltyFold_eq_pfold (ps : List Participant) (revotes : Obj String) (sc : Obj Int) :
    penaltyFold ps revotes sc
      = pfold (fun p => p.connected && jsFalsy (objGet revotes p.username)) (fun x => x - 1) sc ps := rfl

theorem pfold_get_not_mem (cond : Participant → Bool) (f : Int → Int)
    (ps : List Participant) (sc : Obj Int) (u : String)
    (hu : u ∉ List.map Participant.username ps) :
    objGet (pfold cond f sc ps) u = objGet sc u := by
  induction ps generalizing sc with
  | nil => rfl
  | cons q rest ih =>
      simp only [List.map_cons, List.mem_cons, not_or] at hu
      rw [pfold_cons, ih _ hu.2]
      by_cases hc : cond q
      · rw [if_pos hc, objGet_objUpdate_ne _ _ _ _ hu.1]
      · rw [if_neg hc]

theorem pfold_get (cond : Participant → Bool) (f : Int → Int)
    (ps : List Participant) (sc : Obj Int) (p : Participant)
    (hnd : (List.map Participant.username ps).Nodup) (hp : p ∈ ps) :
    objGet (pfold cond f sc ps) p.username
      = if cond p then Option.map f (objGet sc p.username)
        else objGet sc p.username := by
  induction ps generalizing sc with
  | nil => cases hp
  | cons q rest ih =>
      simp only [List.map_cons, List.nodup_cons] at hnd
      rcases List.mem_cons.mp hp with hq | hmem
      · subst hq
        rw [pfold_cons, pfold_get_not_mem _ _ _ _ _ hnd.1]
        by_cases hc : cond p
        · rw [if_pos hc, if_pos hc, objGet_objUpdate_self]
        · rw [if_neg hc, if_neg hc]
      · have hne : p.username ≠ q.username := by
          intro hh
          exact hnd.1 (hh ▸ List.mem_map_of_mem Participant.username hmem)
        rw [pfold_cons, ih _ hnd.2 hmem]
        by_cases hc : cond q
        · rw [if_pos hc, objGet_objUpdate_ne _ _ _ _ hne]
        · rw [if_neg hc]

/-! ### Tally characterisation -/

theorem addVote_agree (r : VoteResults) (v : String) :
    (addVote r v).agree = r.agree + (if v == "agree" then 1 else 0) := by
  by_cases h1 : v = "agree"
  · simp [addVote, h1]
  · by_cases h2 : v = "disagree" <;> by_cases h3 : v = "abstain" <;>
      simp [addVote, h1, h2, h3]

theorem addVote_disagree (r : VoteResults) (v : String) :
    (addVote r v).disagree = r.disagree + (if v == "disagree" then 1 else 0) := by
  by_cases h1 : v = "agree"
  · simp [addVote, h1]
  · by_cases h2 : v = "disagree" <;> by_cases h3 : v = "abstain" <;>
      simp [addVote, h1, h2, h3]

theorem addVote_abstain (r : VoteResults) (v : String) :
    (addVote r v).abstain = r.abstain + (if v == "abstain" then 1 else 0) := by
  by_cases h1 : v = "agree"
  · simp [addVote, h1]
  · by_cases h2 : v = "disagree" <;> by_cases h3 : v = "abstain" <;>
      simp [addVote, h1, h2, h3]

theorem addVote_total (r : VoteResults) (v : String) :
    (addVote r v).total = r.total + (if validChoice v then 1 else 0) := by
  by_cases h1 : v = "agree"
  · simp [addVote, VoteResults.total, validChoice, h1]; omega
  · by_cases h2 : v = "disagree" <;> by_cases h3 : v = "abstain" <;>
      (simp [addVote, VoteResults.total, validChoice, h1, h2, h3]; try omega)

theorem tallyFold_agree (votes : Obj String) (ps : List Participant) (r : VoteResults) :
    (List.foldl (tallyStep votes) r ps).agree
      = r.agree + List.countP (tallyHits votes "agree") ps := by
  induction ps generalizing r with
  | nil => simp
  | cons q rest ih =>
      rw [List.foldl_cons, ih, List.countP_cons]
      unfold tallyStep tallyHits
      by_cases hc : q.connected
      · simp only [hc, if_pos, Bool.true_and]
        rw [addVote_agree]
        by_cases hv : jsOr (objGet votes q.username) "abstain" == "agree" <;>
          simp [hv] <;> omega
      · simp [hc]

theorem tallyFold_disagree (votes : Obj String) (ps : List Participant) (r : VoteResults) :
    (List.foldl (tallyStep votes) r ps).disagree
      = r.disagree + List.countP (tallyHits votes "disagree") ps := by
  induction ps generalizing r with
  | nil => simp
  | cons q rest ih =>
      rw [List.foldl_cons, ih, List.countP_cons]
      unfold tallyStep tallyHits
      by_cases hc : q.connected
      · simp only [hc, if_pos, Bool.true_and]
        rw [addVote_disagree]
        by_cases hv : jsOr (objGet votes q.username) "abstain" == "disagree" <;>
          simp [hv] <;> omega
      · simp [hc]

theorem tallyFold_abstain (votes : Obj String) (ps : List Participant) (r : VoteResults) :
    (List.foldl (tallyStep votes) r ps).abstain
      = r.abstain + List.countP (tallyHits votes "abstain") ps := by
  induction ps generalizing r with
  | nil => simp
  | cons q rest ih =>
      rw [List.foldl_cons, ih, List.countP_cons]
      unfold tallyStep tallyHits
      by_cases hc : q.connected
      · simp only [hc, if_pos, Bool.true_and]
        rw [addVote_abstain]
        by_cases hv : jsOr (objGet votes q.username) "abstain" == "abstain" <;>
          simp [hv] <;> omega
      · simp [hc]

theorem tallyFold_total (votes : Obj String) (ps : List Participant) (r : VoteResults) :
    (List.foldl (tallyStep votes) r ps).total
      = r.total + List.countP
          (fun p => p.connected && validChoice (jsOr (objGet votes p.username) "abstain")) ps := by
  induction ps generalizing r with
  | nil => simp
  | cons q rest ih =>
      rw [List.foldl_cons, ih, List.countP_cons]
      unfold tallyStep
      by_cases hc : q.connected
      · simp only [hc, if_pos, Bool.true_and]
        rw [addVote_total]
        by_cases hv : validChoice (jsOr (objGet votes q.username) "abstain") <;>
          simp [hv] <;> omega
      · simp [hc]

theorem tallyVotes_total (ps : List Participant) (votes : Obj String) :
    (tallyVotes ps votes).total
      = List.countP
          (fun p => p.connected && validChoice (jsOr (objGet votes p.username) "abstain")) ps := by
  unfold tallyVotes
  rw [tallyFold_total]
  simp [VoteResults.total]

/-! ### Exact score effect of `calculateResults` -/

theorem awardOf_nonneg (lobby : Lobby) (gs : GameState) (p : Participant) :
    0 ≤ awardOf lobby gs p := by
  unfold awardOf
  by_cases h : 0 < max (roundChanges lobby gs).1 (roundChanges lobby gs).2
      ∧ objGet gs.revotes p.username = winnerSide (roundChanges lobby gs)
      ∧ (winnerSide (roundChanges lobby gs)).isSome = true
  · rw [if_pos h]
    exact le_of_lt h.1
  · rw [if_neg h]

theorem award_penalty_get (ps : List Participant) (revotes : Obj String)
    (team0 : String) (pts : Int) (guard : Prop) [Decidable guard] (sc : Obj Int)
    (hnd : (List.map Participant.username ps).Nodup) (p : Participant) (hp : p ∈ ps)
    (s : Int) (hs : objGet sc p.username = some s) (hteam : guard → team0 ≠ "") :
    objGet (penaltyFold ps revotes (if guard then awardFold ps revotes team0 pts sc else sc))
        p.username
      = some (s + (if guard ∧ objGet revotes p.username = some team0 then pts else 0)
                + (if p.connected && jsFalsy (objGet revotes p.username) then (-1 : Int) else 0)) := by
  rw [penaltyFold_eq_pfold, pfold_get _ _ _ _ p hnd hp]
  by_cases hg : guard
  · rw [if_pos hg, awardFold_eq_pfold, pfold_get _ _ _ _ p hnd hp]
    by_cases hm : objGet revotes p.username = some team0
    · have hne : ¬ team0 = "" := hteam hg
      have hfal2 : jsFalsy (some team0) = false := by
        simp [jsFalsy, hne]
      simp [hm, hfal2, hg, hs]
    · have hmb : (objGet revotes p.username == some team0) = false := by
        simpa using hm
      by_cases hc : p.connected && jsFalsy (objGet revotes p.username)
      · simp [hmb, hc, hg, hm, hs]
        omega
      · simp [hmb, hc, hg, hm, hs]
  · rw [if_neg hg]
    by_cases hc : p.connected && jsFalsy (objGet revotes p.username)
    · simp [hc, hg, hs]
      omega
    · simp [hc, hg, hs]

theorem calculateResults_scores_eq (lobby : Lobby) (gs : GameState) :
    (calculateResults lobby gs).state.scores
      = penaltyFold lobby.participants gs.revotes
          (if (calculateResults lobby gs).winningTeam.length > 0
              ∧ (calculateResults lobby gs).pointsPerWinner > 0 then
             awardFold lobby.participants gs.revotes
               ((calculateResults lobby gs).winningTeam.headD "")
               (calculateResults lobby gs).pointsPerWinner gs.scores
           else gs.scores) := rfl

theorem calculateResults_agreeChange_eq (lobby : Lobby) (gs : GameState) :
    (calculateResults lobby gs).agreeChange = (roundChanges lobby gs).1 := rfl

theorem calculateResults_disagreeChange_eq (lobby : Lobby) (gs : GameState) :
    (calculateResults lobby gs).disagreeChange = (roundChanges lobby gs).2 := rfl

theorem calculateResults_winningTeam_eq (lobby : Lobby) (gs : GameState) :
    (calculateResults lobby gs).winningTeam
      = match winnerSide (roundChanges lobby gs) with
        | some w => [w]
        | none => [] := by
  have h : (calculateResults lobby gs).winningTeam
      = if (roundChanges lobby gs).1 > (roundChanges lobby gs).2 then ["agree"]
        else if (roundChanges lobby gs).2 > (roundChanges lobby gs).1 then ["disagree"]
        else [] := rfl
  rw [h]
  unfold winnerSide
  rcases lt_trichotomy (roundChanges lobby gs).2 (roundChanges lobby gs).1 with hlt | heq | hgt
  · simp [hlt]
  · simp [heq, lt_irrefl]
  · simp [hgt, not_lt_of_gt hgt]

/-- The net effect of `calculateResults` on the score entry of a roster
participant `p` (duplicate-free roster): exactly the award plus the
penalty. -/
theorem calculateResults_scores_get (lobby : Lobby) (gs : GameState)
    (hnd : (List.map Participant.username lobby.participants).Nodup)
    (p : Participant) (hp : p ∈ lobby.participants) (s : Int)
    (hs : objGet gs.scores p.username = some s) :
    objGet (calculateResults lobby gs).state.scores p.username
      = some (s + awardOf lobby gs p + penaltyOf gs p) := by
  rw [calculateResults_scores_eq]
  have hpts : (calculateResults lobby gs).pointsPerWinner
      = (if (roundChanges lobby gs).1 > (roundChanges lobby gs).2 then (roundChanges lobby gs).1
         else if (roundChanges lobby gs).2 > (roundChanges lobby gs).1 then (roundChanges lobby gs).2
         else 0) := rfl
  rcases lt_trichotomy (roundChanges lobby gs).2 (roundChanges lobby gs).1 with hlt | heq | hgt
  · -- agree side wins
    have hws : winnerSide (roundChanges lobby gs) = some "agree" := by
      unfold winnerSide
      rw [if_pos hlt]
    have hteam : (calculateResults lobby gs).winningTeam = ["agree"] := by
      rw [calculateResults_winningTeam_eq, hws]
    have hpts1 : (calculateResults lobby gs).pointsPerWinner = (roundChanges lobby gs).1 := by
      rw [hpts, if_pos hlt]
    rw [hteam, hpts1]
    rw [show (["agree"] : List String).headD "" = "agree" from rfl]
    rw [award_penalty_get lobby.participants gs.revotes "agree" (roundChanges lobby gs).1
        ((["agree"] : List String).length > 0 ∧ (roundChanges lobby gs).1 > 0)
        gs.scores hnd p hp s hs (fun _ => by decide)]
    have hmax : max (roundChanges lobby gs).1 (roundChanges lobby gs).2
        = (roundChanges lobby gs).1 := max_eq_left (le_of_lt hlt)
    have haw : (if ((["agree"] : List String).length > 0 ∧ (roundChanges lobby gs).1 > 0)
          ∧ objGet gs.revotes p.username = some "agree"
        then (roundChanges lobby gs).1 else 0) = awardOf lobby gs p := by
      simp only [awardOf, hws, hmax]
      by_cases hm : objGet gs.revotes p.username = some "agree" <;>
        by_cases hpos : (0 : Int) < (roundChanges lobby gs).1 <;>
          simp [hm, hpos]
    rw [haw]
    rfl
  · -- tie: no winner, no award
    have hws : winnerSide (roundChanges lobby gs) = none := by
      unfold winnerSide
      rw [if_neg (by rw [heq]; exact lt_irrefl _), if_neg (by rw [heq]; exact lt_irrefl _)]
    have hteam : (calculateResults lobby gs).winningTeam = [] := by
      rw [calculateResults_winningTeam_eq, hws]
    have haw : awardOf lobby gs p = 0 := by
      simp [awardOf, hws]
    rw [hteam]
    rw [if_neg (by simp : ¬ ((([] : List String)).length > 0
        ∧ (calculateResults lobby gs).pointsPerWinner > 0))]
    have happ := award_penalty_get lobby.participants gs.revotes "x" 0 False gs.scores
        hnd p hp s hs (fun h => absurd h (by simp))
    rw [if_neg (by simp : ¬ False)] at happ
    rw [happ, haw]
    have : (if False ∧ objGet gs.revotes p.username = some "x" then (0 : Int) else 0) = 0 := by
      simp
    rw [this]
    rfl
  · -- disagree side wins
    have hws : winnerSide (roundChanges lobby gs) = some "disagree" := by
      unfold winnerSide
      rw [if_neg (not_lt_of_gt hgt), if_pos hgt]
    have hteam : (calculateResults lobby gs).winningTeam = ["disagree"] := by
      rw [calculateResults_winningTeam_eq, hws]
    have hpts1 : (calculateResults lobby gs).pointsPerWinner = (roundChanges lobby gs).2 := by
      rw [hpts, if_neg (not_lt_of_gt hgt), if_pos hgt]
    rw [hteam, hpts1]
    rw [show (["disagree"] : List String).headD "" = "disagree" from rfl]
    rw [award_penalty_get lobby.participants gs.revotes "disagree" (roundChanges lobby gs).2
        ((["disagree"] : List String).length > 0 ∧ (roundChanges lobby gs).2 > 0)
        gs.scores hnd p hp s hs (fun _ => by decide)]
    have hmax : max (roundChanges lobby gs).1 (roundChanges lobby gs).2
        = (roundChanges lobby gs).2 := max_eq_right (le_of_lt hgt)
    have haw : (if ((["disagree"] : List String).length > 0 ∧ (roundChanges lobby gs).2 > 0)
          ∧ objGet gs.revotes p.username = some "disagree"
        then (roundChanges lobby gs).2 else 0) = awardOf lobby gs p := by
      simp only [awardOf, hws, hmax]
      by_cases hm : objGet gs.revotes p.username = some "disagree" <;>
        by_cases hpos : (0 : Int) < (roundChanges lobby gs).2 <;>
          simp [hm, hpos]
    rw [haw]
    rfl

/-! ### Timer-system lemmas -/

theorem timerOk_init : TimerOk timerInit := by
  refine ⟨List.nodup_nil, ?_, ?_, ?_⟩ <;> simp [timerInit]

theorem timerOk_cancelNow (s : TimerSys) (h : TimerOk s) : TimerOk (cancelNow s) := by
  obtain ⟨h1, h2, h3, h4⟩ := h
  unfold cancelNow
  cases ha : s.armed with
  | none => exact ⟨h1, h2, h3, h4⟩
  | some ri =>
      obtain ⟨r, i⟩ := ri
      obtain ⟨hi1, hi2, hi3⟩ := h4 r i ha
      refine ⟨h1, ?_, ?_, ?_⟩
      · intro j hj
        refine ⟨(h2 j hj).1, ?_⟩
        simp only [List.mem_append, List.mem_singleton, not_or]
        exact ⟨(h2 j hj).2, fun hji => hi2 (hji ▸ hj)⟩
      · intro j hj
        rcases List.mem_append.mp hj with hj | hj
        · exact h3 j hj
        · rw [List.mem_singleton.mp hj]
          exact hi1
      · intro r' i' ha'
        simp at ha'

theorem cancelNow_nextId (s : TimerSys) : (cancelNow s).nextId = s.nextId := by
  unfold cancelNow
  cases s.armed with
  | none => rfl
  | some ri => rfl

theorem cancelNow_fired (s : TimerSys) : (cancelNow s).fired = s.fired := by
  unfold cancelNow
  cases s.armed with
  | none => rfl
  | some ri => rfl

theorem tstep_tick_none (s : TimerSys) (ha : s.armed = none) : tstep s TEv.tick = s := by
  simp only [tstep, ha]

theorem tstep_tick_fire (s : TimerSys) (r i : Nat) (ha : s.armed = some (r, i)) (hr : r ≤ 1) :
    tstep s TEv.tick = { s with armed := none, fired := s.fired ++ [i] } := by
  simp only [tstep, ha]
  rw [if_pos hr]

theorem tstep_tick_dec (s : TimerSys) (r i : Nat) (ha : s.armed = some (r, i)) (hr : ¬ r ≤ 1) :
    tstep s TEv.tick = { s with armed := some (r - 1, i) } := by
  simp only [tstep, ha]
  rw [if_neg hr]

theorem timerOk_tstep (s : TimerSys) (e : TEv) (h : TimerOk s) : TimerOk (tstep s e) := by
  cases e with
  | cancel => exact timerOk_cancelNow s h
  | arm d =>
      obtain ⟨h1, h2, h3, h4⟩ := timerOk_cancelNow s h
      show TimerOk { cancelNow s with
                       armed := some (d, (cancelNow s).nextId),
                       nextId := (cancelNow s).nextId + 1 }
      refine ⟨h1, ?_, ?_, ?_⟩
      · intro j hj
        exact ⟨Nat.lt_succ_of_lt (h2 j hj).1, (h2 j hj).2⟩
      · intro j hj
        exact Nat.lt_succ_of_lt (h3 j hj)
      · intro r' i' ha'
        simp only [Option.some_inj, Prod.mk.injEq] at ha'
        refine ⟨ha'.2 ▸ Nat.lt_succ_self _, ?_, ?_⟩
        · intro hmem
          exact absurd (h2 _ hmem).1 (by rw [← ha'.2] at hmem ⊢; omega)
        · intro hmem
          exact absurd (h3 _ hmem) (by rw [← ha'.2]; omega)
  | tick =>
      obtain ⟨h1, h2, h3, h4⟩ := h
      cases ha : s.armed with
      | none =>
          rw [tstep_tick_none s ha]
          exact ⟨h1, h2, h3, fun r i hri => h4 r i hri⟩
      | some ri =>
          obtain ⟨r, i⟩ := ri
          obtain ⟨hi1, hi2, hi3⟩ := h4 r i ha
          by_cases hr : r ≤ 1
          · rw [tstep_tick_fire s r i ha hr]
            refine ⟨?_, ?_, h3, ?_⟩
            · simpa [List.nodup_append] using ⟨h1, fun hmem => hi2 hmem⟩
            · intro j hj
              rcases List.mem_append.mp hj with hj | hj
              · exact h2 j hj
              · rw [List.mem_singleton.mp hj]
                exact ⟨hi1, hi3⟩
            · intro r' i' ha'
              simp at ha'
          · rw [tstep_tick_dec s r i ha hr]
            refine ⟨h1, h2, h3, ?_⟩
            intro r' i' ha'
            simp only [Option.some_inj, Prod.mk.injEq] at ha'
            exact ha'.2 ▸ ⟨hi1, hi2, hi3⟩

theorem timerOk_foldl (evs : List TEv) (s : TimerSys) (h : TimerOk s) :
    TimerOk (List.foldl tstep s evs) := by
  induction evs generalizing s with
  | nil => exact h
  | cons e rest ih => exact ih _ (timerOk_tstep s e h)

theorem timerOk_trun (evs : List TEv) : TimerOk (trun evs) :=
  timerOk_foldl evs timerInit timerOk_init

theorem foldl_tick_lt (k : Nat) :
    ∀ (s : TimerSys) (r i : Nat), s.armed = some (r, i) → k < r →
      List.foldl tstep s (List.replicate k TEv.tick) = { s with armed := some (r - k, i) } := by
  induction k with
  | zero =>
      intro s r i ha hk
      simp only [List.replicate, List.foldl_nil]
      rw [show r - 0 = r from rfl, ← ha]
  | succ k ih =>
      intro s r i ha hk
      rw [List.replicate_succ, List.foldl_cons]
      rw [tstep_tick_dec s r i ha (by omega),
        ih { s with armed := some (r - 1, i) } (r - 1) i rfl (by omega)]
      have harith : r - 1 - k = r - (k + 1) := by omega
      rw [harith]

theorem foldl_tick_fire (s : TimerSys) (r i : Nat) (ha : s.armed = some (r, i)) (hr : 1 ≤ r) :
    List.foldl tstep s (List.replicate r TEv.tick)
      = { s with armed := none, fired := s.fired ++ [i] } := by
  obtain ⟨r', rfl⟩ : ∃ r', r = r' + 1 := ⟨r - 1, by omega⟩
  rw [List.replicate_succ', List.foldl_append,
    foldl_tick_lt r' s (r' + 1) i ha (by omega)]
  have h2 : r' + 1 - r' = 1 := by omega
  rw [h2]
  rfl

/-! ### Vote-handler lemmas -/

theorem castVote_eq (lobby : Lobby) (gs : GameState) (timerArmed : Bool) (u v : String)
    (hv : gs.phase = "voting") :
    castVote lobby gs timerArmed u v
      = { state := { gs with votes := objSet gs.votes u v },
          timerCanceled := timerArmed && decide (objSize (objSet gs.votes u v)
              ≥ (List.filter (fun p => p.connected) lobby.participants).length),
          scheduledDelayMs := if objSize (objSet gs.votes u v)
                ≥ (List.filter (fun p => p.connected) lobby.participants).length
              then some 1000 else none } := by
  by_cases hc : objSize (objSet gs.votes u v)
      ≥ (List.filter (fun p => p.connected) lobby.participants).length <;>
    simp [castVote, hv, hc]

theorem castRevote_eq (lobby : Lobby) (gs : GameState) (timerArmed : Bool) (u v : String)
    (hr : gs.phase = "revoting") :
    castRevote lobby gs timerArmed u v
      = { state := { gs with revotes := objSet gs.revotes u v },
          timerCanceled := timerArmed && decide (objSize (objSet gs.revotes u v)
              ≥ (List.filter (fun p => p.connected) lobby.participants).length),
          scheduledDelayMs := if objSize (objSet gs.revotes u v)
                ≥ (List.filter (fun p => p.connected) lobby.participants).length
              then some 1000 else none } := by
  by_cases hc : objSize (objSet gs.revotes u v)
      ≥ (List.filter (fun p => p.connected) lobby.participants).length <;>
    simp [castRevote, hr, hc]

/-- If every connected roster member has a recorded entry, the vote map
holds at least as many keys as there are connected members (duplicate-free
roster). -/
theorem connected_le_size (ps : List Participant) (votes1 : Obj String)
    (hnd : (List.map Participant.username ps).Nodup)
    (hall : ∀ p ∈ ps, p.connected = true → (objGet votes1 p.username).isSome = true) :
    (List.filter (fun p => p.connected) ps).length ≤ objSize votes1 := by
  have hsub : List.map Participant.username (List.filter (fun p => p.connected) ps)
      ⊆ objKeys votes1 := by
    intro u hu
    rcases List.mem_map.mp hu with ⟨p, hpmem, rfl⟩
    have hmem := List.mem_filter.mp hpmem
    exact (objGet_isSome_iff_mem_keys votes1 p.username).mp
      (hall p hmem.1 (by simpa using hmem.2))
  have hnd2 : (List.map Participant.username (List.filter (fun p => p.connected) ps)).Nodup :=
    ((List.filter_sublist ps).map Participant.username).nodup hnd
  calc (List.filter (fun p => p.connected) ps).length
      = (List.map Participant.username (List.filter (fun p => p.connected) ps)).length := by
        rw [List.length_map]
    _ ≤ (objKeys votes1).length := (List.subperm_of_subset hnd2 hsub).length_le
    _ = objSize votes1 := length_objKeys votes1

/-! ### Claim checks -/

/-- C6: for every round, if the initial tally records zero agree votes or
zero disagree votes, `processVoteResults` takes the skip path: it emits
the vote results, schedules the round-skipped notice (which in turn emits
the notice and schedules the scoreboard), and never schedules the solo
phase (so solo/discussion/revoting are bypassed); otherwise it schedules
the solo phase after the results display delay. -/
theorem C6_round_skip (lobby : Lobby) (gs : GameState) :
    (processVoteResults lobby gs).state.initialVoteResults
        = tallyVotes lobby.participants gs.votes
    ∧ (processVoteResults lobby gs).emits
        = ["game-phase-update:vote-results", "vote-results"]
    ∧ (processVoteResults lobby gs).next
        = some (if (tallyVotes lobby.participants gs.votes).agree = 0
                   ∨ (tallyVotes lobby.participants gs.votes).disagree = 0
                then NextStep.skippedNotice else NextStep.soloPhase)
    ∧ (processVoteResults lobby gs).state.phase
        = (if (tallyVotes lobby.participants gs.votes).agree = 0
              ∨ (tallyVotes lobby.participants gs.votes).disagree = 0
           then "round-skipped" else "vote-results")
    ∧ (roundSkippedNotice (processVoteResults lobby gs).state).emits
        = ["game-phase-update:round-skipped", "round-skipped"]
    ∧ (roundSkippedNotice (processVoteResults lobby gs).state).next
        = some NextStep.scoreboard := by
  by_cases h : (tallyVotes lobby.participants gs.votes).agree = 0
      ∨ (tallyVotes lobby.participants gs.votes).disagree = 0 <;>
    simp [processVoteResults, roundSkippedNotice, h]

/-- C10: in the voting (resp. revoting) phase, `cast-vote` (resp.
`cast-revote`) records the supplied choice under the supplied identity
with no roster-membership check and no choice validation, and the
fast-path trigger compares the number of *all* recorded keys (non-members
included) with the number of connected participants. -/
theorem C10_unvalidated_votes (lobby : Lobby) (gs gsr : GameState)
    (timerA timerB : Bool) (u v u2 v2 : String)
    (hv : gs.phase = "voting") (hr : gsr.phase = "revoting") :
    objGet (castVote lobby gs timerA u v).state.votes u = some v
    ∧ (castVote lobby gs timerA u v).scheduledDelayMs
        = (if objSize (objSet gs.votes u v)
              ≥ (List.filter (fun p => p.connected) lobby.participants).length
           then some 1000 else none)
    ∧ objGet (castRevote lobby gsr timerB u2 v2).state.revotes u2 = some v2
    ∧ (castRevote lobby gsr timerB u2 v2).scheduledDelayMs
        = (if objSize (objSet gsr.revotes u2 v2)
              ≥ (List.filter (fun p => p.connected) lobby.participants).length
           then some 1000 else none) := by
  rw [castVote_eq lobby gs timerA u v hv, castRevote_eq lobby gsr timerB u2 v2 hr]
  exact ⟨objGet_objSet_self _ _ _, rfl, objGet_objSet_self _ _ _, rfl⟩

theorem C10_unvalidated_votes_witness :
    objGet (castVote w10Lobby w10GsV true "intruder" "banana").state.votes "intruder"
      = some "banana" :=
  (C10_unvalidated_votes w10Lobby w10GsV w10GsR true true "intruder" "banana" "x" "y"
    rfl rfl).1

/-- C4 counterexample: with connected participants `A` and `B` and no
recorded votes, two `cast-vote` events from non-members `X1`, `X2` make
the fast path fire (the second schedules the 1-second transition) even
though connected participant `B` has cast no vote — so the fast path does
not fire "exactly when every connected participant has cast a vote". -/
theorem C4_counterexample :
    (castVote c4Lobby c4Gs true "X1" "agree").scheduledDelayMs = none
    ∧ (castVote c4Lobby (castVote c4Lobby c4Gs true "X1" "agree").state
        true "X2" "agree").scheduledDelayMs = some 1000
    ∧ (⟨"B", false, true⟩ : Participant) ∈ c4Lobby.participants
    ∧ objGet (castVote c4Lobby (castVote c4Lobby c4Gs true "X1" "agree").state
        true "X2" "agree").state.votes "B" = none := by decide

/-- C4 (amended): in the voting (resp. revoting) phase the transition is
scheduled by the fast path exactly when the number of recorded vote keys
reaches the number of connected participants (a condition implied by, but
not equivalent to, "every connected participant has voted"); when it
fires it cancels the armed timer and schedules the transition after a
fixed 1-second settle delay rather than instantly. -/
theorem C4_amended_fast_path (lobby : Lobby) (gs gsr : GameState)
    (timerA timerB : Bool) (u v u2 v2 : String)
    (hv : gs.phase = "voting") (hr : gsr.phase = "revoting")
    (hnd : (List.map Participant.username lobby.participants).Nodup) :
    ((castVote lobby gs timerA u v).scheduledDelayMs
        = (if objSize (objSet gs.votes u v)
              ≥ (List.filter (fun p => p.connected) lobby.participants).length
           then some 1000 else none))
    ∧ ((castVote lobby gs timerA u v).timerCanceled
        = (timerA && decide (objSize (objSet gs.votes u v)
              ≥ (List.filter (fun p => p.connected) lobby.participants).length)))
    ∧ ((∀ p ∈ lobby.participants, p.connected = true →
          (objGet (objSet gs.votes u v) p.username).isSome = true) →
        (castVote lobby gs timerA u v).scheduledDelayMs = some 1000)
    ∧ ((castRevote lobby gsr timerB u2 v2).scheduledDelayMs
        = (if objSize (objSet gsr.revotes u2 v2)
              ≥ (List.filter (fun p => p.connected) lobby.participants).length
           then some 1000 else none))
    ∧ ((castRevote lobby gsr timerB u2 v2).timerCanceled
        = (timerB && decide (objSize (objSet gsr.revotes u2 v2)
              ≥ (List.filter (fun p => p.connected) lobby.participants).length)))
    ∧ ((∀ p ∈ lobby.participants, p.connected = true →
          (objGet (objSet gsr.revotes u2 v2) p.username).isSome = true) →
        (castRevote lobby gsr timerB u2 v2).scheduledDelayMs = some 1000) := by
  rw [castVote_eq lobby gs timerA u v hv, castRevote_eq lobby gsr timerB u2 v2 hr]
  refine ⟨rfl, rfl, ?_, rfl, rfl, ?_⟩
  · intro hall
    have := connected_le_size lobby.participants (objSet gs.votes u v) hnd hall
    simp only [ge_iff_le]
    rw [if_pos this]
  · intro hall
    have := connected_le_size lobby.participants (objSet gsr.revotes u2 v2) hnd hall
    simp only [ge_iff_le]
    rw [if_pos this]

theorem C4_amended_fast_path_witness :
    (castVote w4Lobby w4GsV true "A" "agree").scheduledDelayMs
      = (if objSize (objSet w4GsV.votes "A" "agree")
            ≥ (List.filter (fun p => p.connected) w4Lobby.participants).length
         then some 1000 else none) :=
  (C4_amended_fast_path w4Lobby w4GsV w4GsR true true "A" "agree" "A" "agree"
    rfl rfl (by decide)).1

/-- C5 counterexample: a connected participant whose recorded vote is the
unrecognised string `banana` (recorded by the `cast-vote` handler, which
performs no validation) contributes to none of the three counters, so
`agree + disagree + abstain = 0` while one participant is connected — the
unconditional tally invariant fails. -/
theorem C5_counterexample :
    c5Votes = [("A", "banana")]
    ∧ (tallyVotes c5Lobby.participants c5Votes).agree
        + (tallyVotes c5Lobby.participants c5Votes).disagree
        + (tallyVotes c5Lobby.participants c5Votes).abstain = 0
    ∧ (List.filter (fun p => p.connected) c5Lobby.participants).length = 1 := by decide

/-- C5 (amended): at both tally moments (the initial tally of
`processVoteResults` and the final tally of `calculateResults`, both of
which compute `tallyVotes`), each connected participant contributes one
count — their recorded vote when it is a recognised choice, `abstain`
when it is absent or empty — and disconnected participants contribute
nothing; hence, provided every recorded value is a recognised choice (or
empty), `agree + disagree + abstain` equals the number of connected
participants. -/
theorem C5_amended_tally (ps : List Participant) (votes : Obj String)
    (lobby : Lobby) (gs : GameState)
    (hvalid : ∀ u w, objGet votes u = some w → w = "" ∨ validChoice w = true) :
    ((tallyVotes ps votes).agree + (tallyVotes ps votes).disagree
        + (tallyVotes ps votes).abstain
      = (List.filter (fun p => p.connected) ps).length)
    ∧ (tallyVotes ps votes).agree = List.countP (tallyHits votes "agree") ps
    ∧ (tallyVotes ps votes).disagree = List.countP (tallyHits votes "disagree") ps
    ∧ (tallyVotes ps votes).abstain = List.countP (tallyHits votes "abstain") ps
    ∧ (processVoteResults lobby gs).state.initialVoteResults
        = tallyVotes lobby.participants gs.votes
    ∧ (calculateResults lobby gs).state.finalVoteResults
        = tallyVotes lobby.participants gs.revotes := by
  refine ⟨?_, ?_, ?_, ?_, ?_, rfl⟩
  · have htot := tallyVotes_total ps votes
    have hcong : List.countP
        (fun p => p.connected && validChoice (jsOr (objGet votes p.username) "abstain")) ps
        = List.countP (fun p => p.connected) ps := by
      apply List.countP_congr
      intro p _
      have hab : validChoice "abstain" = true := by decide
      cases hg : objGet votes p.username with
      | none => simp [jsOr, hab]
      | some w =>
          rcases hvalid p.username w hg with hw | hw
          · simp [jsOr, hw, hab]
          · by_cases hww : w = ""
            · simp [jsOr, hww, hab]
            · simp [jsOr, hww, hw]
    have := htot
    rw [hcong] at this
    simpa [VoteResults.total, List.countP_eq_length_filter] using this
  · have := tallyFold_agree votes ps ⟨0, 0, 0⟩
    simpa [tallyVotes] using this
  · have := tallyFold_disagree votes ps ⟨0, 0, 0⟩
    simpa [tallyVotes] using this
  · have := tallyFold_abstain votes ps ⟨0, 0, 0⟩
    simpa [tallyVotes] using this
  · by_cases h : (tallyVotes lobby.participants gs.votes).agree = 0
        ∨ (tallyVotes lobby.participants gs.votes).disagree = 0 <;>
      simp [processVoteResults, h]

theorem C5_amended_tally_witness :
    (tallyVotes w5Ps w5Votes).agree + (tallyVotes w5Ps w5Votes).disagree
        + (tallyVotes w5Ps w5Votes).abstain
      = (List.filter (fun p => p.connected) w5Ps).length :=
  (C5_amended_tally w5Ps w5Votes c5Lobby (freshGameState c5Lobby.participants)
    (fun u w hg => by
      have hmem := objGet_eq_some_mem w5Votes u w hg
      have huw : (u, w) = ("A", "agree") :=
        List.mem_singleton.mp (by simpa [w5Votes] using hmem)
      right
      rw [show w = "agree" from congrArg Prod.snd huw]
      decide)).1

/-- C1 counterexample: with initial tally `{agree 2, disagree 2}` (computed
by `processVoteResults` on the four-member roster) and, at results time,
only `A2` still connected and revoting `agree`, the changes are
`agreeChange = −1 > disagreeChange = −2`: the agree side is declared
winner and `A2`'s revote matches it, yet `A2`'s score stays `0` instead of
increasing by `max(agreeChange, disagreeChange) = −1` — the award is
guarded by `pointsPerWinner > 0`. -/
theorem C1_counterexample :
    (processVoteResults c1LobbyStart c1GsVoting).state.initialVoteResults = ⟨2, 2, 0⟩
    ∧ (calculateResults c1LobbyLate c1GsRevote).winningTeam = ["agree"]
    ∧ objGet c1GsRevote.revotes "A2" = some "agree"
    ∧ max (calculateResults c1LobbyLate c1GsRevote).agreeChange
        (calculateResults c1LobbyLate c1GsRevote).disagreeChange = -1
    ∧ objGet c1GsRevote.scores "A2" = some 0
    ∧ objGet (calculateResults c1LobbyLate c1GsRevote).state.scores "A2" = some 0 := by
  decide

/-- C1 (amended): `calculateResults` compares
`agreeChange = finalAgree − initialAgree` with
`disagreeChange = finalDisagree − initialDisagree`; the strictly larger
side wins, equality (including both zero) yields no winner and no points.
Every roster participant's score entry changes by exactly
`awardOf + penaltyOf`: participants whose recorded revote equals the
winning side gain `max(agreeChange, disagreeChange)` — but only when that
maximum is strictly positive; otherwise (and for everyone else) the award
is zero. -/
theorem C1_amended_scoring (lobby : Lobby) (gs : GameState)
    (hnd : (List.map Participant.username lobby.participants).Nodup)
    (p : Participant) (hp : p ∈ lobby.participants) (s : Int)
    (hs : objGet gs.scores p.username = some s) :
    ((calculateResults lobby gs).agreeChange
        = ((tallyVotes lobby.participants gs.revotes).agree : Int)
            - (gs.initialVoteResults.agree : Int))
    ∧ ((calculateResults lobby gs).disagreeChange
        = ((tallyVotes lobby.participants gs.revotes).disagree : Int)
            - (gs.initialVoteResults.disagree : Int))
    ∧ ((calculateResults lobby gs).winningTeam
        = match winnerSide ((calculateResults lobby gs).agreeChange,
            (calculateResults lobby gs).disagreeChange) with
          | some w => [w]
          | none => [])
    ∧ objGet (calculateResults lobby gs).state.scores p.username
        = some (s + awardOf lobby gs p + penaltyOf gs p) := by
  refine ⟨rfl, rfl, ?_, calculateResults_scores_get lobby gs hnd p hp s hs⟩
  exact calculateResults_winningTeam_eq lobby gs

theorem C1_amended_scoring_witness :
    objGet (calculateResults w1Lobby w1Gs).state.scores "A"
      = some (0 + awardOf w1Lobby w1Gs ⟨"A", true, true⟩ + penaltyOf w1Gs ⟨"A", true, true⟩) :=
  (C1_amended_scoring w1Lobby w1Gs (by decide) ⟨"A", true, true⟩ (by decide) 0
    (by decide)).2.2.2

/-- C7: in every round's results step, each connected roster participant
with no recorded revote has their score entry decreased by exactly 1
(whatever the round outcome — the award step cannot touch them), and a
participant who is disconnected at that moment is never penalized (their
score can only change by the non-negative award). -/
theorem C7_no_revote_penalty (lobby : Lobby) (gs : GameState)
    (hnd : (List.map Participant.username lobby.participants).Nodup)
    (p : Participant) (hp : p ∈ lobby.participants) (s : Int)
    (hs : objGet gs.scores p.username = some s) :
    (p.connected = true → objGet gs.revotes p.username = none →
      objGet (calculateResults lobby gs).state.scores p.username = some (s - 1))
    ∧ (p.connected = false →
      ∃ d : Int, 0 ≤ d
        ∧ objGet (calculateResults lobby gs).state.scores p.username = some (s + d)) := by
  constructor
  · intro hc hnone
    rw [calculateResults_scores_get lobby gs hnd p hp s hs]
    have haw : awardOf lobby gs p = 0 := by
      unfold awardOf
      rw [if_neg]
      rintro ⟨-, h1, h2⟩
      rw [hnone] at h1
      rw [← h1] at h2
      simp at h2
    have hpen : penaltyOf gs p = -1 := by
      simp [penaltyOf, hnone, jsFalsy, hc]
    rw [haw, hpen]
    congr 1
    omega
  · intro hc
    refine ⟨awardOf lobby gs p, awardOf_nonneg lobby gs p, ?_⟩
    rw [calculateResults_scores_get lobby gs hnd p hp s hs]
    have hpen : penaltyOf gs p = 0 := by
      simp [penaltyOf, hc]
    rw [hpen]
    simp

theorem C7_no_revote_penalty_witness :
    objGet (calculateResults w7Lobby w7Gs).state.scores "A" = some (0 - 1) :=
  (C7_no_revote_penalty w7Lobby w7Gs (by decide) ⟨"A", true, true⟩ (by decide) 0
    (by decide)).1 rfl (by decide)

/-- C2 counterexample: with an active game (`phase: 'voting'`), the host
`H` leaving (or disconnecting) does NOT tear the lobby down: the lobby
and game state survive, `H` is merely marked disconnected, and
`lobby-updated` — not `lobby-closed` — is broadcast. -/
theorem C2_counterexample :
    c2Gs.phase = "voting"
    ∧ (handleLeaveLobby c2Lobby (some c2Gs) "H").lobby
        = some { c2Lobby with participants := [⟨"H", true, false⟩, ⟨"B", false, true⟩] }
    ∧ (handleLeaveLobby c2Lobby (some c2Gs) "H").game = some c2Gs
    ∧ (handleLeaveLobby c2Lobby (some c2Gs) "H").emits = ["lobby-updated"]
    ∧ (handleDisconnect c2Lobby (some c2Gs) "H").lobby
        = some { c2Lobby with participants := [⟨"H", true, false⟩, ⟨"B", false, true⟩] }
    ∧ (handleDisconnect c2Lobby (some c2Gs) "H").game = some c2Gs
    ∧ (handleDisconnect c2Lobby (some c2Gs) "H").emits = ["lobby-updated"] := by decide

/-- C2 (amended): when no game is active (no game state, or phase
`waiting`), a host leave or disconnect tears the lobby down — lobby and
game state deleted, `lobby-closed` broadcast; during an active game
(phase ≠ `waiting`) the host is instead marked disconnected like any
other participant and the lobby, game state and grace-period policy
survive. -/
theorem C2_amended_host_teardown (lobby : Lobby) (game : Option GameState) :
    (gameActive game = false →
        (handleLeaveLobby lobby game lobby.host).lobby = none
        ∧ (handleLeaveLobby lobby game lobby.host).game = none
        ∧ (handleLeaveLobby lobby game lobby.host).emits = ["lobby-closed"])
    ∧ (gameActive game = false →
        (List.find? (fun p => p.username = lobby.host) lobby.participants).isSome = true →
        (handleDisconnect lobby game lobby.host).lobby = none
        ∧ (handleDisconnect lobby game lobby.host).game = none
        ∧ (handleDisconnect lobby game lobby.host).emits = ["lobby-closed"])
    ∧ (gameActive game = true →
        (handleLeaveLobby lobby game lobby.host).lobby
          = some { lobby with
                     participants := List.map
                                       (fun p => if p.username = lobby.host then
                                         { p with connected := false } else p)
                                       lobby.participants }
        ∧ (handleLeaveLobby lobby game lobby.host).game = game
        ∧ (handleLeaveLobby lobby game lobby.host).emits = ["lobby-updated"])
    ∧ (gameActive game = true →
        (List.find? (fun p => p.username = lobby.host) lobby.participants).isSome = true →
        (handleDisconnect lobby game lobby.host).lobby
          = some { lobby with
                     participants := List.map
                                       (fun p => if p.username = lobby.host then
                                         { p with connected := false } else p)
                                       lobby.participants }
        ∧ (handleDisconnect lobby game lobby.host).game = game
        ∧ (handleDisconnect lobby game lobby.host).emits = ["lobby-updated"]) := by
  refine ⟨?_, ?_, ?_, ?_⟩
  · intro hga
    simp [handleLeaveLobby, hga]
  · intro hga hfound
    obtain ⟨q, hq⟩ := Option.isSome_iff_exists.mp hfound
    simp [handleDisconnect, hq, hga]
  · intro hga
    simp [handleLeaveLobby, hga]
  · intro hga hfound
    obtain ⟨q, hq⟩ := Option.isSome_iff_exists.mp hfound
    simp [handleDisconnect, hq, hga]

theorem C2_amended_host_teardown_witness :
    (handleLeaveLobby w2Lobby none w2Lobby.host).lobby = none
    ∧ (handleLeaveLobby w2Lobby none w2Lobby.host).game = none
    ∧ (handleLeaveLobby w2Lobby none w2Lobby.host).emits = ["lobby-closed"] :=
  (C2_amended_host_teardown w2Lobby none).1 rfl

/-- C3 counterexample: in a lobby whose game has NOT started that already
contains `alice`, a join request for `alice` is not rejected as a
duplicate-identity error: the handler takes the reconnection branch,
answers `reconnection: true`, and marks the existing roster entry
connected. -/
theorem C3_counterexample :
    c3Lobby.gameStarted = false
    ∧ (joinLobby c3Lobby none "alice").reconnection = true
    ∧ (joinLobby c3Lobby none "alice").lobby.participants
        = [⟨"H", true, true⟩, ⟨"alice", false, true⟩] := by decide

/-- C3 (amended): for every join on an existing lobby, whether or not the
game has started, a request whose identity matches an existing roster
entry is treated as a reconnection — `connected` set true, no second
roster entry added, the game state (hence the score table) untouched;
only an identity not yet on the roster is appended, with a zero score
initialised when a game state exists. -/
theorem C3_amended_join (lobby : Lobby) (game : Option GameState) (username : String) :
    ((List.find? (fun p => p.username = username) lobby.participants).isSome = true →
        (joinLobby lobby game username).reconnection = true
        ∧ (joinLobby lobby game username).lobby.participants.length
            = lobby.participants.length
        ∧ (∀ p ∈ (joinLobby lobby game username).lobby.participants,
            p.username = username → p.connected = true)
        ∧ (joinLobby lobby game username).game = game)
    ∧ ((List.find? (fun p => p.username = username) lobby.participants) = none →
        (joinLobby lobby game username).reconnection = false
        ∧ (joinLobby lobby game username).lobby.participants
            = lobby.participants ++ [⟨username, false, true⟩]
        ∧ (joinLobby lobby game username).game
            = (match game with
               | some gsx => some { gsx with scores := objSet gsx.scores username 0 }
               | none => none)) := by
  constructor
  · intro hfound
    obtain ⟨q, hq⟩ := Option.isSome_iff_exists.mp hfound
    refine ⟨by simp [joinLobby, hq], by simp [joinLobby, hq], ?_, by simp [joinLobby, hq]⟩
    intro p hp hpu
    simp only [joinLobby, hq] at hp
    rcases List.mem_map.mp hp with ⟨p0, hp0, rfl⟩
    by_cases h0 : p0.username = username
    · simp [h0]
    · rw [if_neg h0] at hpu ⊢
      exact absurd hpu h0
  · intro hnone
    cases game with
    | none =>
        exact ⟨by simp [joinLobby, hnone], by simp [joinLobby, hnone],
          by simp [joinLobby, hnone]⟩
    | some gsx =>
        exact ⟨by simp [joinLobby, hnone], by simp [joinLobby, hnone],
          by simp [joinLobby, hnone]⟩

theorem C3_amended_join_witness :
    (joinLobby c3Lobby none "alice").reconnection = true
    ∧ (joinLobby c3Lobby none "alice").lobby.participants.length
        = c3Lobby.participants.length
    ∧ (∀ p ∈ (joinLobby c3Lobby none "alice").lobby.participants,
        p.username = "alice" → p.connected = true)
    ∧ (joinLobby c3Lobby none "alice").game = none :=
  (C3_amended_join c3Lobby none "alice").1 (by decide)

/-- C8: evaluation of the code at the failing input.  The speaker pool of
`startSoloPhase` is `Object.keys(gameState.scores)` restricted to
connected roster members; `scores` gains a key for every mid-game joiner,
so after `C` joins the two-player game `{A, B}` mid-game and casts the
empty-string vote, a random draw of index 2 selects `C` as speaker — a
participant NOT present at game start, contradicting both the claim and
the code's own comment ("Only select from connected players who were
present at game start"); moreover `C`'s announced position is `abstain`
although `C` has a recorded (empty) vote. -/
theorem C8_code_eval :
    c8Join.game = some c8Gs1
    ∧ ¬ ("C" ∈ List.map Participant.username c8Lobby0.participants)
    ∧ objGet c8Gs2.votes "C" = some ""
    ∧ (startSoloPhase c8Lobby1 c8Gs2 2).speaker = some "C"
    ∧ (startSoloPhase c8Lobby1 c8Gs2 2).position = some "abstain" := by decide

/-- C9: every armed timer period fires its expiry callback at most once
(the fired-period list of any event trace is duplicate-free), a canceled
period never fires, and for a period armed with `d ≥ 1` seconds the
callback fires exactly on the tick that reaches 0 — not before — while
cancel-then-rearm fires only the new period (never two callbacks for one
armed period). -/
theorem C9_timer_once (evs : List TEv) (d : Nat) (hd : 1 ≤ d) :
    (trun evs).fired.Nodup
    ∧ (∀ i ∈ (trun evs).canceled, i ∉ (trun evs).fired)
    ∧ (trun (TEv.arm d :: List.replicate (d - 1) TEv.tick)).fired = []
    ∧ (trun (TEv.arm d :: List.replicate d TEv.tick)).fired = [0]
    ∧ (trun (TEv.arm d :: TEv.cancel :: TEv.arm d :: List.replicate d TEv.tick)).fired
        = [1] := by
  obtain ⟨h1, h2, h3, h4⟩ := timerOk_trun evs
  refine ⟨h1, ?_, ?_, ?_, ?_⟩
  · intro i hic hif
    exact (h2 i hif).2 hic
  · have harm : trun (TEv.arm d :: List.replicate (d - 1) TEv.tick)
        = List.foldl tstep (⟨some (d, 0), 1, [], []⟩ : TimerSys)
            (List.replicate (d - 1) TEv.tick) := rfl
    by_cases hd1 : d = 1
    · subst hd1
      rw [harm]
      rfl
    · rw [harm, foldl_tick_lt (d - 1) _ d 0 rfl (by omega)]
  · have harm : trun (TEv.arm d :: List.replicate d TEv.tick)
        = List.foldl tstep (⟨some (d, 0), 1, [], []⟩ : TimerSys)
            (List.replicate d TEv.tick) := rfl
    rw [harm, foldl_tick_fire _ d 0 rfl hd]
    rfl
  · have harm : trun (TEv.arm d :: TEv.cancel :: TEv.arm d :: List.replicate d TEv.tick)
        = List.foldl tstep (⟨some (d, 1), 2, [], [0]⟩ : TimerSys)
            (List.replicate d TEv.tick) := rfl
    rw [harm, foldl_tick_fire _ d 1 rfl hd]
    rfl

theorem C9_timer_once_witness :
    (trun []).fired.Nodup
    ∧ (∀ i ∈ (trun []).canceled, i ∉ (trun []).fired)
    ∧ (trun (TEv.arm 1 :: List.replicate (1 - 1) TEv.tick)).fired = []
    ∧ (trun (TEv.arm 1 :: List.replicate 1 TEv.tick)).fired = [0]
    ∧ (trun (TEv.arm 1 :: TEv.cancel :: TEv.arm 1 :: List.replicate 1 TEv.tick)).fired
        = [1] :=
  C9_timer_once [] 1 (by decide)

end A2D
